import Mathlib

/-!
Verification of the multimedia upload/search backend.

The JavaScript services (`FileService`, `CloudinaryService`, `AuthService`,
`FileController`) and the Mongoose `File` model are shallowly embedded below.
JavaScript numbers are modelled as exact arithmetic (`Int` / `Rat`, with the
one transcendental `Math.log` as `Real.log`); strings are ASCII `String`s
manipulated through explicit character lists so that all definitions reduce.
The MongoDB store is a list of records; external collaborators (Cloudinary,
bcrypt, jwt) are passed in as explicit environments, mirroring the spec's
black-box contracts.
-/

deriving instance DecidableEq for Except

namespace Media

/-- JavaScript `String.prototype.toLowerCase` restricted to ASCII data. -/
def lowerStr (s : String) : String :=
  String.mk (s.toList.map Char.toLower)

/-- JavaScript `String.prototype.trim`: strip leading and trailing whitespace. -/
def jsTrim (s : String) : String :=
  String.mk (((s.toList.dropWhile Char.isWhitespace).reverse.dropWhile
    Char.isWhitespace).reverse)

/-- Split a character list at every character satisfying `p`, keeping empty
segments between consecutive separators (the behaviour of JavaScript
`split` with a one-character-class regex; a `+`-quantified class leaves the
same non-empty segments, and every use below filters empties downstream). -/
def splitChars (p : Char → Bool) (l : List Char) : List (List Char) :=
  l.foldr
    (fun c acc =>
      if p c then [] :: acc
      else
        match acc with
        | t :: ts => (c :: t) :: ts
        | [] => [[c]])
    [[]]

/-- `split(/\s+/)` (whitespace runs; empties filtered by the callers). -/
def splitWS (s : String) : List String :=
  (splitChars (fun c => c.isWhitespace) s.toList).map String.mk

/-- `split(/[.\s]+/)` as used by `FileService.generateSearchKeywords`. -/
def splitDotWS (s : String) : List String :=
  (splitChars (fun c => c == '.' || c.isWhitespace) s.toList).map String.mk

/-- `split(/[\s_-]+/)` as used by the `File` model's pre-save hook. -/
def splitNameSeps (s : String) : List String :=
  (splitChars (fun c => c.isWhitespace || c == '_' || c == '-') s.toList).map String.mk

/-- JavaScript `split(',')` (single-character separator, no run collapsing). -/
def splitComma (s : String) : List String :=
  (splitChars (fun c => c == ',') s.toList).map String.mk

/-- `replace(/\.[^/.]+$/, '')`: drop a final `.ext` where `ext` is non-empty
and contains neither `.` nor `/`. -/
def stripExtStr (s : String) : String :=
  let r := s.toList.reverse
  let ext := r.takeWhile (fun c => !(c == '.' || c == '/'))
  if 0 < ext.length then
    match r.drop ext.length with
    | '.' :: rest => String.mk rest.reverse
    | _ => s
  else s

/-- `infixOfChars pat s`: `pat` occurs as a contiguous segment of `s`. -/
def infixOfChars (pat : List Char) : List Char → Bool
  | [] => pat.isEmpty
  | c :: rest => pat.isPrefixOf (c :: rest) || infixOfChars pat rest

/-- JavaScript `s.includes(pat)` (both arguments already case-folded by the
callers): substring containment. -/
def containsStr (s pat : String) : Bool :=
  infixOfChars pat.toList s.toList

/-- Case-insensitive containment: the `new RegExp(q, 'i')` matching used by
the search pre-filter, for metacharacter-free query strings. -/
def containsCI (s pat : String) : Bool :=
  containsStr (lowerStr s) (lowerStr pat)

/-- `mimeType.startsWith(p)`. -/
def startsWithStr (s p : String) : Bool :=
  p.toList.isPrefixOf s.toList

/-- `[...new Set(l)]`: deduplication keeping first occurrences. -/
def dedupFirst (l : List String) : List String :=
  (l.reverse.dedup).reverse

end Media

namespace Media

/-- A document of the `File` collection (`backend/models/File.js`), with the
fields the services read.  `description` is `""` when absent (absent and
empty strings are equally falsy along every code path modelled here);
timestamps are millisecond values (`createdAt`); `resourceType` is the value
`FileService.uploadFile` stores under `metadata.resourceType`. -/
structure FileRecord where
  id : String
  title : String
  description : String
  originalName : String
  fileType : String
  category : String
  tags : List String
  searchKeywords : List String
  isPublic : Bool
  viewCount : Int
  size : Int
  createdAt : Rat
  uploadedBy : String
  cloudinaryId : String
  resourceType : String
deriving DecidableEq

/-- A document of the `User` collection, restricted to the fields the
services touch. -/
structure User where
  id : String
  email : String
  isActive : Bool
  totalFiles : Int
  storageUsed : Int
  lastLogin : Rat
deriving DecidableEq

/-- The MongoDB database: both collections. -/
structure Store where
  files : List FileRecord
  users : List User
deriving DecidableEq

/-- The `pagination` object built by `getUserFiles` and `searchFiles`.
`totalPages` is `Math.ceil(totalFiles / limit)` (an integer). -/
structure Pagination where
  currentPage : Nat
  totalPages : Int
  totalFiles : Nat
  hasNext : Bool
  hasPrev : Bool
  limit : Nat
deriving DecidableEq

/-- The `{files, pagination}` payload of the listing/search responses. -/
structure SearchResult where
  files : List FileRecord
  pagination : Pagination

/-- The object `CloudinaryService.uploadFile` resolves with on success
(the provider itself is a black box per the spec). -/
structure CloudinaryResult where
  cloudinaryId : String
  url : String
  secureUrl : String
  fileName : String
  resourceType : String
deriving DecidableEq

/-- A JavaScript primitive value appearing in request bodies. -/
inductive JSPrim where
  | str (s : String)
  | bool (b : Bool)
  | list (xs : List String)
deriving DecidableEq

/-- A JavaScript value as passed across the controller/service boundary:
`undefined`, a primitive, or a flat object. -/
inductive JSValue where
  | undef
  | prim (p : JSPrim)
  | obj (fields : List (String × JSPrim))
deriving DecidableEq

/-- `jsGet v k` is `v[k]` (`none` encodes `undefined`): property lookup is
only meaningful on objects. -/
def jsGet (v : JSValue) (k : String) : Option JSPrim :=
  match v with
  | .obj fields => (fields.find? (fun p => p.1 == k)).map (fun p => p.2)
  | _ => none

/-- The multer upload plus form fields handed to `FileService.uploadFile`
(`title`/`description`/`category` use `""` for an absent, falsy field). -/
structure UploadInput where
  originalname : String
  mimetype : String
  size : Int
  title : String
  description : String
  tags : JSValue
  category : String
  isPublic : JSValue
deriving DecidableEq

/-- Modelled from the spec: the identity token is opaque and "carries a user
id + expiry"; the jwt library is not under src, so only the id payload is
modelled. -/
structure AuthToken where
  userId : String
deriving DecidableEq

end Media

namespace Media.FileModel

/-- The keyword recomputation of `fileSchema.pre('save')` in
`backend/models/File.js`: whitespace tokens of the lowercased title and
description, the stored tags, and the lowercased `originalName` with its
final extension stripped, split on whitespace/underscore/hyphen; then
`[...new Set(keywords)].filter(k => k.length > 0)`. -/
def preSaveKeywords (f : FileRecord) : List String :=
  let keywords :=
    (if f.title ≠ "" then splitWS (lowerStr f.title) else [])
    ++ (if f.description ≠ "" then splitWS (lowerStr f.description) else [])
    ++ (if 0 < f.tags.length then f.tags else [])
    ++ (if f.originalName ≠ "" then splitNameSeps (stripExtStr (lowerStr f.originalName))
        else [])
  (dedupFirst keywords).filter (fun k => 0 < k.length)

/-- `document.save()`: the pre-save hook overwrites `searchKeywords` with
`preSaveKeywords` exactly when `title`, `description` or `tags` is modified
(always the case for a newly created document). -/
def saveRecord (f : FileRecord) (modifiedTitleDescTags : Bool) : FileRecord :=
  if modifiedTitleDescTags then { f with searchKeywords := preSaveKeywords f } else f

/-- Mongoose schema setters on `tags` entries: `trim: true, lowercase: true`. -/
def schemaTag (t : String) : String :=
  jsTrim (lowerStr t)

end Media.FileModel

namespace Media.FileService

/-- `FileService.determineFileType`: MIME-prefix dispatch. -/
def determineFileType (mimeType : String) : String :=
  if startsWithStr mimeType "image/" then "image"
  else if startsWithStr mimeType "video/" then "video"
  else if startsWithStr mimeType "audio/" then "audio"
  else "document"

/-- `FileService.generateSearchKeywords`: whitespace tokens of lowercased
title and description, lowercased tags, `originalName` lowercased and split
on `[.\s]+`, plus `fileType` and `category`; then
`[...new Set(keywords.filter(k => k && k.length > 2))]`. -/
def generateSearchKeywords (f : FileRecord) : List String :=
  let keywords :=
    (if f.title ≠ "" then splitWS (lowerStr f.title) else [])
    ++ (if f.description ≠ "" then splitWS (lowerStr f.description) else [])
    ++ f.tags.map lowerStr
    ++ (if f.originalName ≠ "" then splitDotWS (lowerStr f.originalName) else [])
    ++ [f.fileType, f.category]
  dedupFirst (keywords.filter (fun k => 2 < k.length))

/-- The text-match part of the relevance score in `FileService.searchFiles`
(lines 442-462): title equal 20 / contains 10, description contains 5, tag
equal 15 / contains 7, search-keyword contains 3.  The scorer lowercases the
raw (untrimmed) query. -/
def textScore (q : String) (f : FileRecord) : Rat :=
  let queryLower := lowerStr q
  let titleLower := lowerStr f.title
  (if titleLower = queryLower then (20 : Rat)
   else if containsStr titleLower queryLower then 10 else 0)
  + (if containsStr (lowerStr f.description) queryLower then 5 else 0)
  + (if f.tags.any (fun t => lowerStr t == queryLower) then (15 : Rat)
     else if f.tags.any (fun t => containsStr (lowerStr t) queryLower) then 7 else 0)
  + (if f.searchKeywords.any (fun k => containsStr (lowerStr k) queryLower) then 3 else 0)

/-- `daysSinceUpload = (new Date() - file.createdAt) / (1000*60*60*24)`. -/
def ageDays (now createdAt : Rat) : Rat :=
  (now - createdAt) / (1000 * 60 * 60 * 24)

/-- The recency bonus: `(30 - daysSinceUpload) * 0.1` when under 30 days. -/
def recencyBonus (a : Rat) : Rat :=
  if a < 30 then (30 - a) * (1 / 10) else 0

/-- The full relevance score of `FileService.searchFiles`: text match plus
`Math.log(viewCount + 1)` plus the recency bonus. -/
noncomputable def relevanceScore (q : String) (now : Rat) (f : FileRecord) : Real :=
  (textScore q f : Real) + Real.log ((f.viewCount : Real) + 1)
    + (recencyBonus (ageDays now f.createdAt) : Real)

/-- The base query `{uploadedBy: userId}` plus the optional `fileType` and
`category` equality filters (absent/falsy filter values add no clause). -/
def baseFilter (uid : String) (fileTypeF categoryF : Option String) (f : FileRecord) : Bool :=
  (f.uploadedBy == uid)
  && (match fileTypeF with | some t => f.fileType == t | none => true)
  && (match categoryF with | some c => f.category == c | none => true)

/-- The `$or` regex pre-filter of search mode: the trimmed query matches
case-insensitively inside title, description, originalName, some tag, or
some search keyword. -/
def matchesSearch (qt : String) (f : FileRecord) : Bool :=
  containsCI f.title qt || containsCI f.description qt || containsCI f.originalName qt
  || f.tags.any (fun t => containsCI t qt)
  || f.searchKeywords.any (fun k => containsCI k qt)

/-- `scoredResults.sort((a, b) => b.relevanceScore - a.relevanceScore)`:
stable descending sort by score. -/
noncomputable def sortByRelevance (q : String) (now : Rat) (l : List FileRecord) :
    List FileRecord :=
  List.insertionSort (fun a b => relevanceScore q now b ≤ relevanceScore q now a) l

/-- The listing-mode sort key comparison for a `sortBy` value (`date`,
`name`, `size`, `views`; anything else falls back to `createdAt`). -/
def listingKeyLe (sortBy : String) (a b : FileRecord) : Bool :=
  if sortBy == "name" then !(decide (b.title < a.title))
  else if sortBy == "size" then decide (a.size ≤ b.size)
  else if sortBy == "views" then decide (a.viewCount ≤ b.viewCount)
  else decide (a.createdAt ≤ b.createdAt)

/-- Store-level sort with direction (`asc` ascending, otherwise descending). -/
def listingSort (sortBy sortOrder : String) (l : List FileRecord) : List FileRecord :=
  List.insertionSort
    (fun a b =>
      (if sortOrder == "asc" then listingKeyLe sortBy a b else listingKeyLe sortBy b a) = true)
    l

/-- `FileService.getUserFiles`: owner-scoped filter, store sort,
`skip/limit` slice, and the pagination object of lines 139-150. -/
def getUserFiles (st : Store) (uid : String) (page limit : Nat)
    (fileTypeF categoryF : Option String) (sortBy sortOrder : String) : SearchResult :=
  let skip := (page - 1) * limit
  let matched := st.files.filter (baseFilter uid fileTypeF categoryF)
  { files := ((listingSort sortBy sortOrder matched).drop skip).take limit
    pagination :=
      { currentPage := page
        totalPages := ⌈(matched.length : Rat) / (limit : Rat)⌉
        totalFiles := matched.length
        hasNext := decide (skip + limit < matched.length)
        hasPrev := decide (1 < page)
        limit := limit } }

/-- `FileService.searchFiles` (lines 399-532).  Search mode (non-blank query)
pre-filters by the `$or` regex, scores, sorts by score descending and slices
in memory; listing mode delegates sort/skip/limit to the store.  Both build
the same pagination object from their respective totals. -/
noncomputable def searchFiles (st : Store) (uid : String) (q : String) (page limit : Nat)
    (fileTypeF categoryF : Option String) (sortBy sortOrder : String) (now : Rat) :
    SearchResult :=
  let skip := (page - 1) * limit
  if jsTrim q ≠ "" then
    let searchResults :=
      st.files.filter (fun f => baseFilter uid fileTypeF categoryF f
        && matchesSearch (jsTrim q) f)
    { files := ((sortByRelevance q now searchResults).drop skip).take limit
      pagination :=
        { currentPage := page
          totalPages := ⌈(searchResults.length : Rat) / (limit : Rat)⌉
          totalFiles := searchResults.length
          hasNext := decide (skip + limit < searchResults.length)
          hasPrev := decide (1 < page)
          limit := limit } }
  else
    let matched := st.files.filter (baseFilter uid fileTypeF categoryF)
    { files := ((listingSort sortBy sortOrder matched).drop skip).take limit
      pagination :=
        { currentPage := page
          totalPages := ⌈(matched.length : Rat) / (limit : Rat)⌉
          totalFiles := matched.length
          hasNext := decide (skip + limit < matched.length)
          hasPrev := decide (1 < page)
          limit := limit } }

/-- `FileService.getFileById`: `findOne({_id, $or: [{uploadedBy}, {isPublic:
true}]})`; absence is the access-denied error. -/
def getFileById (st : Store) (fileId uid : String) : Except String FileRecord :=
  match st.files.find? (fun f => f.id == fileId && (f.uploadedBy == uid || f.isPublic)) with
  | some f => .ok f
  | none => .error "File not found or access denied"

/-- `FileService.updateUserStats` applied to one user document: increment on
`sizeChange > 0`, otherwise clamped decrement. -/
def applyStats (u : User) (sizeChange : Int) : User :=
  if 0 < sizeChange then
    { u with totalFiles := u.totalFiles + 1, storageUsed := u.storageUsed + sizeChange }
  else
    { u with totalFiles := max 0 (u.totalFiles - 1)
             storageUsed := max 0 (u.storageUsed + sizeChange) }

/-- `FileService.updateUserStats` over the collection: `findById` then
mutate-and-save; a missing user changes nothing. -/
def updateUserStats (users : List User) (uid : String) (sizeChange : Int) : List User :=
  users.map (fun u => if u.id == uid then applyStats u sizeChange else u)

/-- Upload form `tags` normalisation: an array is taken as is, a non-empty
string is split on commas and trimmed, anything falsy yields `[]`. -/
def parseTags (v : JSValue) : List String :=
  match v with
  | .prim (.str s) => if s = "" then [] else (splitComma s).map jsTrim
  | .prim (.list xs) => xs
  | _ => []

/-- `isPublic === 'true' || isPublic === true`. -/
def parseIsPublic (v : JSValue) : Bool :=
  v == .prim (.str "true") || v == .prim (.bool true)

/-- The `new File({...})` document built by `FileService.uploadFile` before
keyword generation (schema setters trim title/description and
trim+lowercase tags; `metadata.resourceType` keeps the provider's resource
type). -/
def buildUploadRecord (cr : CloudinaryResult) (input : UploadInput) (uid newId : String)
    (now : Rat) : FileRecord :=
  let originalName := if input.originalname ≠ "" then input.originalname else "unnamed"
  { id := newId
    title := jsTrim (if input.title ≠ "" then input.title else originalName)
    description := jsTrim input.description
    originalName := originalName
    fileType := determineFileType input.mimetype
    category := if input.category ≠ "" then input.category else "other"
    tags := (parseTags input.tags).map FileModel.schemaTag
    searchKeywords := []
    isPublic := parseIsPublic input.isPublic
    viewCount := 0
    size := input.size
    createdAt := now
    uploadedBy := uid
    cloudinaryId := cr.cloudinaryId
    resourceType := cr.resourceType }

/-- `FileService.uploadFile`: write to object storage first (`cloud = none`
models a failed provider write, which the service surfaces as the upload
error before touching the database); on success build the record, assign
`generateSearchKeywords`, save (the model hook fires: new document), then
update the owner's counters.  Returns the outcome together with the
post-state. -/
def uploadFile (st : Store) (cloud : Option CloudinaryResult) (input : UploadInput)
    (uid newId : String) (now : Rat) : Except String FileRecord × Store :=
  match cloud with
  | none => (.error "File upload failed", st)
  | some cr =>
    let r0 := buildUploadRecord cr input uid newId now
    let r1 := { r0 with searchKeywords := generateSearchKeywords r0 }
    let saved := FileModel.saveRecord r1 true
    (.ok saved,
      { files := st.files ++ [saved]
        users := updateUserStats st.users uid input.size })

end Media.FileService

namespace Media.CloudinaryService

/-- The `cloudinary.uploader.destroy` environment: `none` models a thrown
provider error, `some r` a response `{result: r}`. -/
def DestroyEnv := String → Option String

/-- The `auto` loop of `CloudinaryService.deleteFile`: try each resource
type, swallow exceptions, and stop at the first response whose `result` is
`'ok'` or `'not found'`. -/
def tryDeleteTypes (env : DestroyEnv) : List String → Option (String × String)
  | [] => none
  | t :: ts =>
    match env t with
    | some r => if r == "ok" || r == "not found" then some (t, r) else tryDeleteTypes env ts
    | none => tryDeleteTypes env ts

/-- `CloudinaryService.deleteFile` (lines 98-160): for resource type `auto`,
typed deletes in the fixed order image, video, raw, accepting the first
`ok`/`not found`; otherwise a single typed delete whose response is accepted
unconditionally (only a thrown provider error fails). -/
def deleteFile (env : DestroyEnv) (resourceType : String) :
    Except String (String × String) :=
  if resourceType = "auto" then
    match tryDeleteTypes env ["image", "video", "raw"] with
    | some (t, r) => .ok (r, t)
    | none => .error "Could not delete file with any resource type"
  else
    match env resourceType with
    | some r => .ok (r, resourceType)
    | none => .error "Failed to delete file from cloud storage"

end Media.CloudinaryService

namespace Media.FileService

/-- `FileService.deleteFile`: owner-scoped lookup, object-storage delete,
then record deletion and counter decrement; a storage failure propagates and
leaves the store untouched.  Returns the outcome with the post-state. -/
def deleteFile (st : Store) (env : CloudinaryService.DestroyEnv) (fileId uid : String) :
    Except String Unit × Store :=
  match st.files.find? (fun f => f.id == fileId && f.uploadedBy == uid) with
  | none => (.error "File not found or access denied", st)
  | some f =>
    match CloudinaryService.deleteFile env f.resourceType with
    | .error _ => (.error "Failed to delete file", st)
    | .ok _ =>
      (.ok (),
        { files := st.files.filter (fun g => !(g.id == fileId))
          users := updateUserStats st.users uid (-f.size) })

/-- The `allowedUpdates` loop of `FileService.updateFile`: copy the present
allowed fields from the patch, splitting a string `tags` on commas, coercing
`isPublic`, and applying schema setters. -/
def applyAllowedUpdates (f : FileRecord) (updates : JSValue) : FileRecord :=
  let f :=
    match jsGet updates "title" with
    | some (.str s) => { f with title := jsTrim s }
    | _ => f
  let f :=
    match jsGet updates "description" with
    | some (.str s) => { f with description := jsTrim s }
    | _ => f
  let f :=
    match jsGet updates "tags" with
    | some (.str s) => { f with tags := ((splitComma s).map jsTrim).map FileModel.schemaTag }
    | some (.list xs) => { f with tags := xs.map FileModel.schemaTag }
    | _ => f
  let f :=
    match jsGet updates "category" with
    | some (.str s) => { f with category := s }
    | _ => f
  match jsGet updates "isPublic" with
  | some v => { f with isPublic := (v == .str "true" || v == .bool true) }
  | none => f

/-- `FileService.updateFile(fileId, userId, updates)`: `findOne({_id: fileId,
uploadedBy: userId})` — the second parameter is compared against the stored
owner id, so only a string equal to it matches (a document value never
does); then the allowed-field patch, keyword regeneration and save (the
hook refires when title/description changed or tags were assigned).
Returns the outcome with the post-state. -/
def updateFile (st : Store) (fileId : String) (userIdArg : JSValue) (updates : JSValue) :
    Except String FileRecord × Store :=
  match st.files.find? (fun f => f.id == fileId && userIdArg == .prim (.str f.uploadedBy)) with
  | none => (.error "File not found or access denied", st)
  | some f =>
    let f1 := applyAllowedUpdates f updates
    let f2 := { f1 with searchKeywords := generateSearchKeywords f1 }
    let modified := f1.title ≠ f.title ∨ f1.description ≠ f.description
      ∨ (jsGet updates "tags").isSome
    let saved := FileModel.saveRecord f2 (decide modified)
    (.ok saved, { st with files := st.files.map (fun g => if g.id == fileId then saved else g) })

end Media.FileService

namespace Media.FileController

/-- `FileController.updateFile` (lines 121-145): the controller invokes
`FileService.updateFile(req.params.id, req.body, req.user.id)` — the body in
the service's `userId` position and the authenticated user id in the
`updates` position. -/
def updateFile (st : Store) (paramsId : String) (body : JSValue) (userId : String) :
    Except String FileRecord × Store :=
  FileService.updateFile st paramsId body (.prim (.str userId))

end Media.FileController

namespace Media.AuthService

/-- `AuthService.loginUser` (lines 64-106).  The password check is the
bcrypt comparison of the `User` model, which is not under src — modelled
from the spec's black-box "password-hash verification" as an abstract
predicate; `updateLastLogin` is modelled from the spec ("lastLogin updated
on every successful authentication") as setting it to the current time, and
the issued token carries the user id. -/
def loginUser (users : List User) (checkPw : User → String → Bool) (now : Rat)
    (email password : String) : Except String (User × AuthToken) :=
  match users.find? (fun u => u.email == email) with
  | none => .error "Invalid email or password"
  | some u =>
    if !u.isActive then .error "Account is deactivated. Please contact support"
    else if !(checkPw u password) then .error "Invalid email or password"
    else .ok ({ u with lastLogin := now }, { userId := u.id })

end Media.AuthService

namespace Media

/-! Claim-side definitions: formulas written the way the specification
states them, to be compared with the embedded code. -/

/-- Spec §4.1 title contribution: +20 when the lowercased, trimmed title
equals the lowercased query, else +10 when the lowercased title contains
it. -/
def specTitleContrib (q : String) (f : FileRecord) : Rat :=
  if jsTrim (lowerStr f.title) = lowerStr q then 20
  else if containsStr (lowerStr f.title) (lowerStr q) then 10 else 0

/-- Spec §4.1 description contribution: +5 on containment. -/
def specDescContrib (q : String) (f : FileRecord) : Rat :=
  if containsStr (lowerStr f.description) (lowerStr q) then 5 else 0

/-- Spec §4.1 tag contribution: +15 on an exact lowercased tag match, else
+7 on containment. -/
def specTagsContrib (q : String) (f : FileRecord) : Rat :=
  if f.tags.any (fun t => lowerStr t == lowerStr q) then 15
  else if f.tags.any (fun t => containsStr (lowerStr t) (lowerStr q)) then 7 else 0

/-- Spec §4.1 search-keyword contribution: +3 on containment. -/
def specKeywordContrib (q : String) (f : FileRecord) : Rat :=
  if f.searchKeywords.any (fun k => containsStr (lowerStr k) (lowerStr q)) then 3 else 0

/-- Spec §4.1 recency contribution: `(30 - ageDays) * 0.1` under 30 days,
else 0. -/
def specRecencyContrib (a : Rat) : Rat :=
  if a < 30 then (30 - a) * (1 / 10) else 0

/-- The `searchKeywords` recipe exactly as the specification words it
(§4.4 upload step 3): lowercased tokens from title, description, tags,
filename-without-extension, fileType and category; drop tokens of length
at most 2; dedupe. -/
def specSearchKeywords (f : FileRecord) : List String :=
  dedupFirst ((splitWS (lowerStr f.title) ++ splitWS (lowerStr f.description)
    ++ f.tags.map lowerStr
    ++ splitNameSeps (stripExtStr (lowerStr f.originalName))
    ++ [lowerStr f.fileType, lowerStr f.category]).filter (fun k => 2 < k.length))

/-- An `ok` or `not_found` provider response is an accepted delete outcome. -/
def acceptedResult (r : Option String) : Bool :=
  r == some "ok" || r == some "not found"

/-- The first resource type in the claim's fixed order image, video, raw
whose destroy attempt is accepted. -/
def firstAcceptedType (env : CloudinaryService.DestroyEnv) : Option String :=
  if acceptedResult (env "image") then some "image"
  else if acceptedResult (env "video") then some "video"
  else if acceptedResult (env "raw") then some "raw"
  else none

/-- The pagination contract of spec §8: `hasNext == (skip + limit <
totalItems)`, `hasPrev == (page > 1)`, `totalPages == ceil(totalItems /
limit)` with `skip = (page - 1) * limit`. -/
def paginationMatches (page limit : Nat) (p : Pagination) : Prop :=
  p.hasNext = decide ((page - 1) * limit + limit < p.totalFiles)
  ∧ p.hasPrev = decide (1 < page)
  ∧ p.totalPages = (((p.totalFiles + limit - 1) / limit : Nat) : Int)

/-! Concrete sample data used by the witness and counterexample theorems. -/

/-- A record whose title is already trimmed, with zero views. -/
def sampleScoreFile : FileRecord :=
  { id := "f0", title := "Vacation Photo", description := "a beach day"
    originalName := "img.jpg", fileType := "image", category := "personal"
    tags := ["beach"], searchKeywords := ["vacation", "photo", "beach"]
    isPublic := false, viewCount := 0, size := 100, createdAt := 0
    uploadedBy := "u1", cloudinaryId := "c0", resourceType := "image" }

/-- A candidate passing the owner filter whose fields nowhere contain the
query `dog`. -/
def fCat : FileRecord :=
  { id := "f1", title := "cat", description := "", originalName := "cat.jpg"
    fileType := "image", category := "other", tags := [], searchKeywords := ["cat"]
    isPublic := false, viewCount := 0, size := 5, createdAt := 0
    uploadedBy := "u1", cloudinaryId := "c1", resourceType := "image" }

/-- A store holding only `fCat`. -/
def stC2 : Store := { files := [fCat], users := [] }

/-- A private record owned by `u1`. -/
def fPriv : FileRecord :=
  { id := "f2", title := "secret", description := "", originalName := "s.txt"
    fileType := "document", category := "personal", tags := [], searchKeywords := []
    isPublic := false, viewCount := 0, size := 7, createdAt := 0
    uploadedBy := "u1", cloudinaryId := "c2", resourceType := "raw" }

/-- A store holding only the private record `fPriv`. -/
def stPriv : Store := { files := [fPriv], users := [] }

/-- A record whose stored resource type is `auto`. -/
def fAuto : FileRecord :=
  { id := "f7", title := "vid", description := "", originalName := "v.mp4"
    fileType := "video", category := "other", tags := [], searchKeywords := []
    isPublic := false, viewCount := 0, size := 9, createdAt := 0
    uploadedBy := "u1", cloudinaryId := "c7", resourceType := "auto" }

/-- A store holding `fAuto` and its owner. -/
def stDel : Store :=
  { files := [fAuto]
    users := [{ id := "u1", email := "owner@x.y", isActive := true, totalFiles := 1
                storageUsed := 9, lastLogin := 0 }] }

/-- A destroy environment in which every typed delete answers `error`. -/
def envFail : CloudinaryService.DestroyEnv := fun _ => some "error"

/-- A deactivated account. -/
def uInactive : User :=
  { id := "u9", email := "a@b.c", isActive := false, totalFiles := 0, storageUsed := 0
    lastLogin := 0 }

/-- An owner with one stored file, used for the counter claims. -/
def sampleUser : User :=
  { id := "u1", email := "owner@x.y", isActive := true, totalFiles := 3, storageUsed := 50
    lastLogin := 0 }

/-- The record targeted by the HTTP update scenario. -/
def fUpd : FileRecord :=
  { id := "f1", title := "Old Title", description := "a photo", originalName := "pic.png"
    fileType := "image", category := "other", tags := ["beach"], searchKeywords := []
    isPublic := false, viewCount := 0, size := 5, createdAt := 0
    uploadedBy := "u1", cloudinaryId := "c1", resourceType := "image" }

/-- A store holding only `fUpd`. -/
def stUpd : Store := { files := [fUpd], users := [] }

/-- The JSON body `{title: "New Title"}` of the `PUT /files/:id` request. -/
def bodyTitle : JSValue := .obj [("title", .str "New Title")]

/-- An upload whose fields expose every difference between the two keyword
formulas: a short title token, a filename extension, and non-trivial
fileType/category values. -/
def exRec5 : FileRecord :=
  { id := "f5", title := "a file", description := "", originalName := "photo.jpg"
    fileType := "image", category := "other", tags := [], searchKeywords := []
    isPublic := false, viewCount := 0, size := 1, createdAt := 0
    uploadedBy := "u1", cloudinaryId := "c5", resourceType := "image" }

/-! Helper lemmas. -/

theorem mem_dedupFirst {a : String} {l : List String} : a ∈ dedupFirst l ↔ a ∈ l := by
  simp [dedupFirst, List.mem_reverse, List.mem_dedup]

theorem strNe_iff_lengthPos (k : String) : k ≠ "" ↔ 0 < k.length := by
  cases k with
  | mk data => cases data <;> simp [String.length, String.ext_iff]

/-- `Math.ceil` of a natural division agrees with the rounded-up natural
division `(t + l - 1) / l`. -/
theorem ceil_div_nat (t l : Nat) (hl : 1 ≤ l) :
    ⌈(t : Rat) / (l : Rat)⌉ = (((t + l - 1) / l : Nat) : Int) := by
  have hl0 : 0 < l := hl
  have hlq : (0 : Rat) < (l : Rat) := by exact_mod_cast hl0
  have hdm := Nat.div_add_mod (t + l - 1) l
  have hmod : (t + l - 1) % l < l := Nat.mod_lt _ hl0
  obtain ⟨m, hm⟩ : ∃ m, l * ((t + l - 1) / l) = m := ⟨_, rfl⟩
  rw [hm] at hdm
  have h1 : t ≤ m := by omega
  have h2 : m < t + l := by omega
  have hm' : ((t + l - 1) / l) * l = m := by rw [Nat.mul_comm]; exact hm
  have hnm : ((((t + l - 1) / l : Nat)) : Rat) * (l : Rat) = (m : Rat) := by
    exact_mod_cast hm'
  have h2q : (m : Rat) < (t : Rat) + (l : Rat) := by exact_mod_cast h2
  have h1q : (t : Rat) ≤ (m : Rat) := by exact_mod_cast h1
  rw [Int.ceil_eq_iff]
  constructor
  · rw [lt_div_iff₀ hlq]
    simp only [Int.cast_natCast]
    nlinarith [hnm, h2q, hlq]
  · rw [div_le_iff₀ hlq]
    simp only [Int.cast_natCast]
    nlinarith [hnm, h1q]

theorem mem_listingSort {sortBy sortOrder : String} {l : List FileRecord} {f : FileRecord} :
    f ∈ FileService.listingSort sortBy sortOrder l ↔ f ∈ l := by
  simp [FileService.listingSort, List.mem_insertionSort]

theorem perm_sortByRelevance (q : String) (now : Rat) (l : List FileRecord) :
    List.Perm (FileService.sortByRelevance q now l) l :=
  List.perm_insertionSort _ l

theorem mem_of_mem_slice {l : List FileRecord} {f : FileRecord} {s n : Nat}
    (h : f ∈ (l.drop s).take n) : f ∈ l :=
  List.drop_subset s l (List.take_subset n _ h)

/-- Anything in the files list returned by `getUserFiles` passed the
owner/type/category filter. -/
theorem baseFilter_of_mem_getUserFiles {st : Store} {uid : String} {page limit : Nat}
    {ftF catF : Option String} {sortBy sortOrder : String} {f : FileRecord}
    (h : f ∈ (FileService.getUserFiles st uid page limit ftF catF sortBy sortOrder).files) :
    FileService.baseFilter uid ftF catF f = true := by
  simp only [FileService.getUserFiles] at h
  have h1 := mem_of_mem_slice h
  rw [mem_listingSort] at h1
  exact (List.mem_filter.mp h1).2

/-- Anything in the files list returned by `searchFiles` (either mode)
passed the owner/type/category filter. -/
theorem baseFilter_of_mem_searchFiles {st : Store} {uid q : String} {page limit : Nat}
    {ftF catF : Option String} {sortBy sortOrder : String} {now : Rat} {f : FileRecord}
    (h : f ∈ (FileService.searchFiles st uid q page limit ftF catF sortBy sortOrder now).files) :
    FileService.baseFilter uid ftF catF f = true := by
  by_cases hq : jsTrim q ≠ ""
  · simp only [FileService.searchFiles, if_pos hq] at h
    have h1 := mem_of_mem_slice h
    rw [(perm_sortByRelevance q now _).mem_iff] at h1
    exact (Bool.and_eq_true _ _ |>.mp (List.mem_filter.mp h1).2).1
  · simp only [FileService.searchFiles, if_neg hq] at h
    have h1 := mem_of_mem_slice h
    rw [mem_listingSort] at h1
    exact (List.mem_filter.mp h1).2

/-- The `auto` branch of the storage delete resolved through the
claim-side first-accepted-type function. -/
theorem deleteFile_auto_eq (env : CloudinaryService.DestroyEnv) :
    CloudinaryService.deleteFile env "auto"
      = match firstAcceptedType env with
        | some t => .ok ((env t).getD "", t)
        | none => .error "Could not delete file with any resource type" := by
  simp only [CloudinaryService.deleteFile, if_pos rfl, CloudinaryService.tryDeleteTypes,
    firstAcceptedType, acceptedResult]
  rcases h1 : env "image" with _ | r1 <;> rcases h2 : env "video" with _ | r2 <;>
    rcases h3 : env "raw" with _ | r3 <;>
    simp [h1, h2, h3] <;> split_ifs <;> simp_all

theorem firstAcceptedType_accepted {env : CloudinaryService.DestroyEnv} {t : String}
    (h : firstAcceptedType env = some t) : acceptedResult (env t) = true := by
  unfold firstAcceptedType at h
  split_ifs at h <;> simp_all

theorem acceptedResult_iff (r : Option String) :
    acceptedResult r = true ↔ r = some "ok" ∨ r = some "not found" := by
  rcases r with _ | s <;> simp [acceptedResult]

/-- C1: for every file record with non-negative view count and stored
(hence trimmed) title, and every non-empty query, the search-mode relevance
score is exactly the sum of the spec's additive contributions — title
20/10, description 5, tags 15/7, keywords 3, `ln(viewCount + 1)`, and the
under-30-days recency bonus — and the score is non-negative. -/
theorem searchScore_additive_decomposition (f : FileRecord) (q : String) (now : Rat)
    (hq : q ≠ "") (hv : 0 ≤ f.viewCount)
    (ht : jsTrim (lowerStr f.title) = lowerStr f.title) :
    FileService.relevanceScore q now f
      = ((specTitleContrib q f + specDescContrib q f + specTagsContrib q f
          + specKeywordContrib q f : Rat) : Real)
        + Real.log ((f.viewCount : Real) + 1)
        + ((specRecencyContrib (FileService.ageDays now f.createdAt) : Rat) : Real)
      ∧ 0 ≤ FileService.relevanceScore q now f := by
  have htext : FileService.textScore q f
      = specTitleContrib q f + specDescContrib q f + specTagsContrib q f
        + specKeywordContrib q f := by
    simp only [FileService.textScore, specTitleContrib, specDescContrib, specTagsContrib,
      specKeywordContrib, ht]
  have hrec : FileService.recencyBonus (FileService.ageDays now f.createdAt)
      = specRecencyContrib (FileService.ageDays now f.createdAt) := rfl
  have h1 : 0 ≤ FileService.textScore q f := by
    simp only [FileService.textScore]
    split_ifs <;> norm_num
  have h3 : 0 ≤ FileService.recencyBonus (FileService.ageDays now f.createdAt) := by
    simp only [FileService.recencyBonus]
    split_ifs with h <;> nlinarith
  have h2 : 0 ≤ Real.log ((f.viewCount : Real) + 1) := by
    apply Real.log_nonneg
    have hvr : (0 : Real) ≤ (f.viewCount : Real) := by exact_mod_cast hv
    linarith
  refine ⟨?_, ?_⟩
  · simp only [FileService.relevanceScore, htext, hrec]
  · have c1 : (0 : Real) ≤ ((FileService.textScore q f : Rat) : Real) := by
      exact_mod_cast h1
    have c3 : (0 : Real)
        ≤ ((FileService.recencyBonus (FileService.ageDays now f.createdAt) : Rat) : Real) := by
      exact_mod_cast h3
    simp only [FileService.relevanceScore]
    linarith

/-- Witness for C1 at a concrete record and query. -/
theorem searchScore_additive_decomposition_witness :
    FileService.relevanceScore "photo" 0 sampleScoreFile
      = ((specTitleContrib "photo" sampleScoreFile + specDescContrib "photo" sampleScoreFile
          + specTagsContrib "photo" sampleScoreFile
          + specKeywordContrib "photo" sampleScoreFile : Rat) : Real)
        + Real.log ((sampleScoreFile.viewCount : Real) + 1)
        + ((specRecencyContrib (FileService.ageDays 0 sampleScoreFile.createdAt) : Rat) : Real)
      ∧ 0 ≤ FileService.relevanceScore "photo" 0 sampleScoreFile :=
  searchScore_additive_decomposition sampleScoreFile "photo" 0 (by decide) (by decide)
    (by decide)

/-- C2 counterexample: with query `dog`, the record `fCat` passes the
owner/type/category filter (candidate count 1) yet the reported
`totalFiles` is 0 — the regex pre-filter excluded it from scoring and from
the total, contradicting the claim's "full candidate set" reading. -/
theorem searchMode_totalFiles_counterexample :
    (FileService.searchFiles stC2 "u1" "dog" 1 10 none none "relevance" "desc"
        0).pagination.totalFiles = 0
    ∧ (stC2.files.filter (FileService.baseFilter "u1" none none)).length = 1 := by
  decide

/-- C2 (amended): in search mode the candidate set is the records passing
the owner/type/category filter AND containing the trimmed query
(case-insensitively) in title, description, originalName, a tag, or a
search keyword; every such record is scored (the relevance sort is a
permutation of exactly that set), the returned page is a slice of the
sorted set, and `totalFiles` is the size of that set before pagination. -/
theorem searchMode_candidate_set (st : Store) (uid q : String) (page limit : Nat)
    (ftF catF : Option String) (sortBy sortOrder : String) (now : Rat)
    (hq : jsTrim q ≠ "") :
    (FileService.searchFiles st uid q page limit ftF catF sortBy
        sortOrder now).pagination.totalFiles
      = (st.files.filter (fun f => FileService.baseFilter uid ftF catF f
          && FileService.matchesSearch (jsTrim q) f)).length
    ∧ List.Perm
        (FileService.sortByRelevance q now (st.files.filter (fun f =>
          FileService.baseFilter uid ftF catF f
            && FileService.matchesSearch (jsTrim q) f)))
        (st.files.filter (fun f => FileService.baseFilter uid ftF catF f
          && FileService.matchesSearch (jsTrim q) f))
    ∧ (FileService.searchFiles st uid q page limit ftF catF sortBy sortOrder now).files
      = ((FileService.sortByRelevance q now (st.files.filter (fun f =>
          FileService.baseFilter uid ftF catF f
            && FileService.matchesSearch (jsTrim q) f))).drop
              ((page - 1) * limit)).take limit := by
  refine ⟨?_, perm_sortByRelevance _ _ _, ?_⟩ <;>
    simp only [FileService.searchFiles, if_pos hq]

/-- Witness for C2's amended statement at a concrete store and query. -/
theorem searchMode_candidate_set_witness :
    (FileService.searchFiles stC2 "u1" "cat" 1 10 none none "relevance" "desc"
        0).pagination.totalFiles
      = (stC2.files.filter (fun f => FileService.baseFilter "u1" none none f
          && FileService.matchesSearch (jsTrim "cat") f)).length
    ∧ List.Perm
        (FileService.sortByRelevance "cat" 0 (stC2.files.filter (fun f =>
          FileService.baseFilter "u1" none none f
            && FileService.matchesSearch (jsTrim "cat") f)))
        (stC2.files.filter (fun f => FileService.baseFilter "u1" none none f
          && FileService.matchesSearch (jsTrim "cat") f))
    ∧ (FileService.searchFiles stC2 "u1" "cat" 1 10 none none "relevance" "desc" 0).files
      = ((FileService.sortByRelevance "cat" 0 (stC2.files.filter (fun f =>
          FileService.baseFilter "u1" none none f
            && FileService.matchesSearch (jsTrim "cat") f))).drop ((1 - 1) * 10)).take 10 :=
  searchMode_candidate_set stC2 "u1" "cat" 1 10 none none "relevance" "desc" 0 (by decide)

/-- C3: for valid page and limit, both the listing and the search operation
return a pagination object with `hasNext == (skip + limit < totalItems)`,
`hasPrev == (page > 1)` and `totalPages == ceil(totalItems / limit)`. -/
theorem pagination_invariant (st : Store) (uid q : String) (page limit : Nat)
    (ftF catF : Option String) (sortBy sortOrder : String) (now : Rat)
    (hp : 1 ≤ page) (hl : 1 ≤ limit) (hl50 : limit ≤ 50) :
    paginationMatches page limit
      (FileService.getUserFiles st uid page limit ftF catF sortBy sortOrder).pagination
    ∧ paginationMatches page limit
      (FileService.searchFiles st uid q page limit ftF catF sortBy sortOrder now).pagination := by
  constructor
  · exact ⟨rfl, rfl, ceil_div_nat _ _ hl⟩
  · by_cases hq : jsTrim q ≠ ""
    · simp only [FileService.searchFiles, if_pos hq]
      exact ⟨rfl, rfl, ceil_div_nat _ _ hl⟩
    · simp only [FileService.searchFiles, if_neg hq]
      exact ⟨rfl, rfl, ceil_div_nat _ _ hl⟩

/-- Witness for C3 at a concrete store, page 2, limit 10. -/
theorem pagination_invariant_witness :
    paginationMatches 2 10
      (FileService.getUserFiles stC2 "u1" 2 10 none none "date" "desc").pagination
    ∧ paginationMatches 2 10
      (FileService.searchFiles stC2 "u1" "cat" 2 10 none none "date" "desc" 0).pagination :=
  pagination_invariant stC2 "u1" "cat" 2 10 none none "date" "desc" 0 (by decide) (by decide)
    (by decide)

/-- C4: a private record of a different owner is never in the results of
search or listing and is never the record returned by get-by-id, while a
public record with the requested id always makes get-by-id succeed. -/
theorem ownership_invariant (st : Store) (u q : String) (page limit : Nat)
    (ftF catF : Option String) (sortBy sortOrder : String) (now : Rat)
    (fid : String) (f : FileRecord)
    (hpriv : f.isPublic = false) (hown : f.uploadedBy ≠ u) :
    f ∉ (FileService.searchFiles st u q page limit ftF catF sortBy sortOrder now).files
    ∧ f ∉ (FileService.getUserFiles st u page limit ftF catF sortBy sortOrder).files
    ∧ FileService.getFileById st fid u ≠ .ok f
    ∧ (∀ g ∈ st.files, g.isPublic = true → g.id = fid →
        ∃ h, FileService.getFileById st fid u = .ok h) := by
  have hbeq : (f.uploadedBy == u) = false := by
    simp only [beq_eq_false_iff_ne, ne_eq]
    exact hown
  have hbase : FileService.baseFilter u ftF catF f = false := by
    simp [FileService.baseFilter, hbeq]
  refine ⟨?_, ?_, ?_, ?_⟩
  · intro hmem
    have hb := baseFilter_of_mem_searchFiles hmem
    rw [hbase] at hb
    exact Bool.noConfusion hb
  · intro hmem
    have hb := baseFilter_of_mem_getUserFiles hmem
    rw [hbase] at hb
    exact Bool.noConfusion hb
  · intro hok
    unfold FileService.getFileById at hok
    rcases hfind : st.files.find? (fun g => g.id == fid && (g.uploadedBy == u || g.isPublic))
      with _ | g
    · rw [hfind] at hok
      exact Except.noConfusion hok
    · rw [hfind] at hok
      have hg := List.find?_some hfind
      have hgf : g = f := by
        have := Except.ok.inj hok
        exact this
      rw [hgf] at hg
      rw [Bool.and_eq_true, Bool.or_eq_true] at hg
      rcases hg.2 with h | h
      · rw [beq_iff_eq] at h
        exact hown h
      · rw [hpriv] at h
        exact Bool.noConfusion h
  · intro g hg hgpub hgid
    have hsome : (st.files.find? (fun x => x.id == fid && (x.uploadedBy == u || x.isPublic))).isSome := by
      rw [List.find?_isSome]
      exact ⟨g, hg, by simp [hgid, hgpub]⟩
    rcases Option.isSome_iff_exists.mp hsome with ⟨h, hh⟩
    refine ⟨h, ?_⟩
    unfold FileService.getFileById
    rw [hh]

/-- Witness for C4 at a concrete store and foreign requester. -/
theorem ownership_invariant_witness :
    fPriv ∉ (FileService.searchFiles stPriv "u2" "secret" 1 10 none none "relevance" "desc"
        0).files
    ∧ fPriv ∉ (FileService.getUserFiles stPriv "u2" 1 10 none none "date" "desc").files
    ∧ FileService.getFileById stPriv "f2" "u2" ≠ .ok fPriv
    ∧ (∀ g ∈ stPriv.files, g.isPublic = true → g.id = "f2" →
        ∃ h, FileService.getFileById stPriv "f2" "u2" = .ok h) :=
  ownership_invariant stPriv "u2" "secret" 1 10 none none "relevance" "desc" 0 "f2" fPriv
    (by decide) (by decide)

theorem mem_guard_splitWS {k s : String} (hk : k ≠ "") :
    (k ∈ (if s ≠ "" then splitWS (lowerStr s) else [])) ↔ k ∈ splitWS (lowerStr s) := by
  split_ifs with h
  · exact Iff.rfl
  · push_neg at h
    subst h
    have he : splitWS (lowerStr "") = [""] := by decide
    simp [he, hk]

theorem mem_guard_nameSeps {k s : String} (hk : k ≠ "") :
    (k ∈ (if s ≠ "" then splitNameSeps (stripExtStr (lowerStr s)) else []))
      ↔ k ∈ splitNameSeps (stripExtStr (lowerStr s)) := by
  split_ifs with h
  · exact Iff.rfl
  · push_neg at h
    subst h
    have he : splitNameSeps (stripExtStr (lowerStr "")) = [""] := by decide
    simp [he, hk]

theorem guard_tags (tags : List String) :
    (if 0 < tags.length then tags else []) = tags := by
  split_ifs with h
  · rfl
  · exact (List.length_eq_zero.mp (by omega)).symm

/-- C5 counterexample: for a concrete upload, the stored keywords after save
differ from the spec's formula as a set: `image` (the fileType) is in the
spec's set but not stored, while the length-1 token `a` is stored although
the spec drops tokens of length at most 2 — the pre-save hook recomputes
the keywords with a different recipe than `generateSearchKeywords`. -/
theorem keywords_spec_formula_counterexample :
    "image" ∈ specSearchKeywords exRec5
    ∧ "image" ∉ (FileModel.saveRecord
        { exRec5 with searchKeywords := FileService.generateSearchKeywords exRec5 }
        true).searchKeywords
    ∧ "a" ∉ specSearchKeywords exRec5
    ∧ "a" ∈ (FileModel.saveRecord
        { exRec5 with searchKeywords := FileService.generateSearchKeywords exRec5 }
        true).searchKeywords := by
  decide

/-- C5 (amended): after a save in which title/description/tags is modified
— in particular after every upload — the stored `searchKeywords` are the
deduplicated non-empty tokens of the pre-save hook's recipe: whitespace
tokens of the lowercased title and description, the stored tags, and the
lowercased filename with final extension stripped split on
whitespace/underscore/hyphen; fileType and category are not included and
tokens of length 1 or 2 are kept.  The upload pipeline stores exactly this
hook output (overwriting the `generateSearchKeywords` assignment). -/
theorem searchKeywords_after_save (f : FileRecord) (k : String) :
    (k ∈ (FileModel.saveRecord
        { f with searchKeywords := FileService.generateSearchKeywords f } true).searchKeywords
      ↔ (k ≠ "" ∧ (k ∈ splitWS (lowerStr f.title) ∨ k ∈ splitWS (lowerStr f.description)
          ∨ k ∈ f.tags ∨ k ∈ splitNameSeps (stripExtStr (lowerStr f.originalName)))))
    ∧ (∀ (st : Store) (cr : CloudinaryResult) (input : UploadInput) (uid newId : String)
        (now : Rat),
        (FileService.uploadFile st (some cr) input uid newId now).2.files
          = st.files ++ [FileModel.saveRecord
              { FileService.buildUploadRecord cr input uid newId now with
                searchKeywords := FileService.generateSearchKeywords
                  (FileService.buildUploadRecord cr input uid newId now) } true]) := by
  constructor
  · show k ∈ FileModel.preSaveKeywords
        { f with searchKeywords := FileService.generateSearchKeywords f } ↔ _
    simp only [FileModel.preSaveKeywords]
    rw [List.mem_filter, mem_dedupFirst]
    simp only [List.mem_append, decide_eq_true_eq, guard_tags]
    constructor
    · rintro ⟨hmem, hlen⟩
      have hk : k ≠ "" := (strNe_iff_lengthPos k).mpr hlen
      refine ⟨hk, ?_⟩
      rcases hmem with ((h | h) | h) | h
      · exact Or.inl ((mem_guard_splitWS hk).mp h)
      · exact Or.inr (Or.inl ((mem_guard_splitWS hk).mp h))
      · exact Or.inr (Or.inr (Or.inl h))
      · exact Or.inr (Or.inr (Or.inr ((mem_guard_nameSeps hk).mp h)))
    · rintro ⟨hk, hmem⟩
      refine ⟨?_, (strNe_iff_lengthPos k).mp hk⟩
      rcases hmem with h | h | h | h
      · exact Or.inl (Or.inl (Or.inl ((mem_guard_splitWS hk).mpr h)))
      · exact Or.inl (Or.inl (Or.inr ((mem_guard_splitWS hk).mpr h)))
      · exact Or.inl (Or.inr h)
      · exact Or.inr ((mem_guard_nameSeps hk).mpr h)
  · intro st cr input uid newId now
    rfl

/-- C6 counterexample: an inactive account yields a different error message
than an unknown email, so the three login failure causes do not share one
indistinguishable message. -/
theorem login_error_message_counterexample :
    AuthService.loginUser [uInactive] (fun _ _ => true) 0 "a@b.c" "pw"
      = .error "Account is deactivated. Please contact support"
    ∧ AuthService.loginUser [] (fun _ _ => true) 0 "a@b.c" "pw"
      = .error "Invalid email or password"
    ∧ "Account is deactivated. Please contact support" ≠ "Invalid email or password" := by
  decide

/-- C6 (amended): unknown email and password mismatch share the one generic
invalid-credentials message, but a deactivated account yields the distinct
deactivation message; on success `lastLogin` is set to the current time and
a token carrying the user id is issued. -/
theorem loginUser_outcomes (users : List User) (checkPw : User → String → Bool) (now : Rat)
    (email password : String) :
    (users.find? (fun u => u.email == email) = none →
      AuthService.loginUser users checkPw now email password
        = .error "Invalid email or password")
    ∧ (∀ u, users.find? (fun v => v.email == email) = some u → u.isActive = false →
      AuthService.loginUser users checkPw now email password
        = .error "Account is deactivated. Please contact support")
    ∧ (∀ u, users.find? (fun v => v.email == email) = some u → u.isActive = true →
      checkPw u password = false →
      AuthService.loginUser users checkPw now email password
        = .error "Invalid email or password")
    ∧ (∀ u, users.find? (fun v => v.email == email) = some u → u.isActive = true →
      checkPw u password = true →
      AuthService.loginUser users checkPw now email password
        = .ok ({ u with lastLogin := now }, { userId := u.id })) := by
  refine ⟨?_, ?_, ?_, ?_⟩
  · intro h
    simp [AuthService.loginUser, h]
  · intro u hu hact
    simp [AuthService.loginUser, hu, hact]
  · intro u hu hact hpw
    simp [AuthService.loginUser, hu, hact, hpw]
  · intro u hu hact hpw
    simp [AuthService.loginUser, hu, hact, hpw]

/-- Witness for C6's amended statement: a successful login updates
`lastLogin` and issues the id-carrying token. -/
theorem loginUser_outcomes_witness :
    AuthService.loginUser [sampleUser] (fun _ _ => true) 5 "owner@x.y" "pw"
      = .ok ({ sampleUser with lastLogin := 5 }, { userId := sampleUser.id }) :=
  (loginUser_outcomes [sampleUser] (fun _ _ => true) 5 "owner@x.y" "pw").2.2.2 sampleUser
    (by decide) (by decide) (by decide)

/-- C7: for an owned record stored with resource type `auto`, the storage
delete tries image, video, raw in that order and accepts exactly the first
`ok`/`not found` response; when no type is accepted the whole delete fails
and the store — metadata record and counters — is exactly the pre-call
state. -/
theorem deleteFile_auto_order_and_atomic_failure (st : Store)
    (env : CloudinaryService.DestroyEnv) (fid uid : String) (f : FileRecord)
    (hfind : st.files.find? (fun g => g.id == fid && g.uploadedBy == uid) = some f)
    (hauto : f.resourceType = "auto") :
    (∀ r t, CloudinaryService.deleteFile env "auto" = .ok (r, t) →
      firstAcceptedType env = some t ∧ env t = some r ∧ (r = "ok" ∨ r = "not found"))
    ∧ (firstAcceptedType env = none →
      FileService.deleteFile st env fid uid = (.error "Failed to delete file", st)) := by
  constructor
  · intro r t hok
    rw [deleteFile_auto_eq] at hok
    rcases hf : firstAcceptedType env with _ | t' <;> rw [hf] at hok
    · exact Except.noConfusion hok
    · have hinj := Except.ok.inj hok
      have hr : (env t').getD "" = r := congrArg Prod.fst hinj
      have htt : t' = t := congrArg Prod.snd hinj
      subst htt
      have hacc := firstAcceptedType_accepted hf
      rcases (acceptedResult_iff _).mp hacc with h | h <;> rw [h] at hr <;>
        simp only [Option.getD_some] at hr <;> subst hr
      · exact ⟨rfl, h, Or.inl rfl⟩
      · exact ⟨rfl, h, Or.inr rfl⟩
  · intro hnone
    have hdel : CloudinaryService.deleteFile env "auto"
        = .error "Could not delete file with any resource type" := by
      rw [deleteFile_auto_eq, hnone]
    simp only [FileService.deleteFile, hfind, hauto, hdel]

/-- Witness for C7: with every typed delete answering `error`, the delete
of the `auto` record fails and the store is unchanged. -/
theorem deleteFile_auto_witness :
    FileService.deleteFile stDel envFail "f7" "u1"
      = (.error "Failed to delete file", stDel) :=
  (deleteFile_auto_order_and_atomic_failure stDel envFail "f7" "u1" fAuto (by decide)
    (by decide)).2 (by decide)

/-- C8: an upload whose object-storage write fails aborts with an error and
has no side effects — the post-state equals the pre-state, so no metadata
record is created and the owner's counters are unchanged. -/
theorem uploadFailure_no_side_effects (st : Store) (input : UploadInput)
    (uid newId : String) (now : Rat) :
    (FileService.uploadFile st none input uid newId now).2 = st
    ∧ (FileService.uploadFile st none input uid newId now).1
      = .error "File upload failed" :=
  ⟨rfl, rfl⟩

/-- C9: the code evaluated at the failing input.  The controller passes
`req.body` in the service's `userId` position and `req.user.id` as the
patch, so the owner's own HTTP update request fails with the
access-denied error and changes nothing, while the service invoked as
`updateFile(f, u, p)` — what the claim asserts the HTTP path is equivalent
to — succeeds and applies the title patch. -/
theorem controller_update_argument_swap :
    (FileController.updateFile stUpd "f1" bodyTitle "u1").1
      = .error "File not found or access denied"
    ∧ (FileController.updateFile stUpd "f1" bodyTitle "u1").2 = stUpd
    ∧ (FileService.updateFile stUpd "f1" (.prim (.str "u1")) bodyTitle).1.isOk = true
    ∧ ((FileService.updateFile stUpd "f1" (.prim (.str "u1")) bodyTitle).2.files.map
        FileRecord.title) = ["New Title"] := by
  decide

/-- C10: `updateUserStats` with `sizeChange = 0` takes the decrement branch
— `totalFiles` becomes `max 0 (totalFiles - 1)` and `storageUsed` becomes
`max 0 (storageUsed + 0)`; `totalFiles` is incremented exactly when
`sizeChange` is strictly positive; and a zero-byte upload routes its owner
through that zero-size call. -/
theorem updateUserStats_zero_decrements (u : User) (hu : 0 ≤ u.totalFiles) :
    FileService.applyStats u 0
      = { u with totalFiles := max 0 (u.totalFiles - 1)
                 storageUsed := max 0 (u.storageUsed + 0) }
    ∧ (∀ s : Int, (FileService.applyStats u s).totalFiles = u.totalFiles + 1 ↔ 0 < s)
    ∧ (∀ (st : Store) (cr : CloudinaryResult) (input : UploadInput) (newId : String)
        (now : Rat), input.size = 0 →
        (FileService.uploadFile st (some cr) input u.id newId now).2.users
          = st.users.map (fun v => if v.id == u.id then FileService.applyStats v 0 else v)) := by
  refine ⟨?_, ?_, ?_⟩
  · simp [FileService.applyStats]
  · intro s
    constructor
    · intro h
      by_contra hs
      push_neg at hs
      rw [FileService.applyStats, if_neg (by omega)] at h
      simp only at h
      rcases le_total (0 : Int) (u.totalFiles - 1) with h' | h'
      · rw [max_eq_right h'] at h
        omega
      · rw [max_eq_left h'] at h
        omega
    · intro hs
      rw [FileService.applyStats, if_pos hs]
  · intro st cr input newId now hsize
    simp only [FileService.uploadFile, FileService.updateUserStats, hsize]

/-- Witness for C10 at a concrete owner. -/
theorem updateUserStats_zero_decrements_witness :
    FileService.applyStats sampleUser 0
      = { sampleUser with totalFiles := max 0 (sampleUser.totalFiles - 1)
                          storageUsed := max 0 (sampleUser.storageUsed + 0) } :=
  (updateUserStats_zero_decrements sampleUser (by decide)).1

end Media
